import Mathlib

/-!
Verification of the Cloudflare email worker (`src/worker.js`, the module
whose entry point is `main`).  The worker receives an inbound email,
decides accept/reject from the envelope recipient, forwards the raw
message to a filtered list of addresses, posts a formatted notification
payload to a chat webhook, and optionally sends an automated reply.

Shallow embedding conventions:
* JS strings are Lean `String`s; `String.prototype.trim`,
  `String.prototype.toLowerCase` and `String.prototype.split(',')` are
  modelled by `jsTrim`, `lowerS` and `splitOnCommaS` below (ASCII case
  folding, `Char.isWhitespace` as the whitespace class).
* JS `null`/`undefined`-able strings are `Option String`; JS truthiness
  of such a value is `truthy` (absent or empty string are falsy).
* The external collaborators are parameters of the model: the
  HTML-to-text converter is an arbitrary function `conv : String → String`,
  and the platform primitives that can fail (`message.forward`, the
  webhook `fetch`) are driven by a `World` record saying which calls
  throw.  `console` logging is not modelled.
* The side effects of one invocation are recorded as a list of `Event`s
  in program order; `message.setReject(r)` is `Event.rejected r`.
-/

/-! ## JS string primitives -/

/-- Whitespace class used by the model of `String.prototype.trim`. -/
def wsChar (c : Char) : Bool := c.isWhitespace

/-- Drop trailing characters satisfying `p` (helper for `trimChars`). -/
def dropEndWhile (p : Char → Bool) (l : List Char) : List Char :=
  (l.reverse.dropWhile p).reverse

/-- Character-list core of `String.prototype.trim`: drop leading and
trailing whitespace. -/
def trimChars (l : List Char) : List Char :=
  dropEndWhile wsChar (l.dropWhile wsChar)

/-- Model of `s.trim()`. -/
def jsTrim (s : String) : String := ⟨trimChars s.data⟩

/-- ASCII lower-casing of one character (model of the case folding done
by `toLowerCase` on the addresses this worker handles). -/
def lcChar (c : Char) : Char :=
  if 'A' ≤ c ∧ c ≤ 'Z' then Char.ofNat (c.toNat + 32) else c

/-- Model of `s.toLowerCase()`. -/
def lowerS (s : String) : String := ⟨s.data.map lcChar⟩

/-- Character-list core of `s.split(',')`: always returns at least one
piece; a separator at either end contributes an empty piece. -/
def splitAux : List Char → List (List Char)
  | [] => [[]]
  | c :: rest =>
    if c = ',' then [] :: splitAux rest
    else (c :: (splitAux rest).headD []) :: (splitAux rest).tail

/-- Model of `s.split(',')`. -/
def splitOnCommaS (s : String) : List String :=
  (splitAux s.data).map String.mk

/-- Joins pieces with a comma separator (used to re-feed a computed
forward list into the filter; inverse of `splitAux` on comma-free
pieces). -/
def joinCommaChars : List (List Char) → List Char
  | [] => []
  | [p] => p
  | p :: q :: ps => p ++ ',' :: joinCommaChars (q :: ps)

/-- Model of `list.join(',')`. -/
def joinComma (l : List String) : String :=
  ⟨joinCommaChars (l.map String.data)⟩

/-- JS truthiness of a nullable string: `null`/`undefined` and `""` are
falsy. -/
def truthy : Option String → Bool
  | none => false
  | some s => !(s == "")

/-- Model of `o || d` on nullable strings (the default kicks in on the
empty string as well as on `null`). -/
def jsOr (o : Option String) (d : String) : String :=
  match o with
  | none => d
  | some s => if s == "" then d else s

/-- Template-literal interpolation of a nullable string: JS renders
`null` as the text `"null"`. -/
def jsInterp : Option String → String
  | none => "null"
  | some s => s

/-! ## Data model -/

/-- Attachment as produced by the MIME parser (`postal-mime` with
`attachmentEncoding: 'base64'`): `filename`/`mimeType` may be absent,
`content` is the base64 payload string. -/
structure MimeAttachment where
  filename : Option String
  mimeType : Option String
  content : String
deriving DecidableEq

/-- Attachment after `filterAttachments` substituted the defaults. -/
structure FiltAttachment where
  filename : String
  mimeType : String
  content : String
deriving DecidableEq

/-- Result of `convertContent`: the normalized plain body and the
normalized raw HTML body (each `null` when unavailable). -/
structure ConvertedContent where
  text : Option String
  html : Option String
deriving DecidableEq

/-- Inbound message together with the fields `PostalMime.parse` extracts
from `message.raw` (`text`, `html`, `attachments`) and the two headers
the worker reads (`subject`, `Message-ID`). -/
structure EmailMsg where
  msgFrom : String
  msgTo : String
  subject : Option String
  messageId : Option String
  text : Option String
  html : Option String
  attachments : List MimeAttachment
deriving DecidableEq

/-- Worker configuration (the `env` bindings the code reads).  Boolean
vars model the `=== true` checks; optional strings model possibly-unset
bindings. -/
structure Env where
  WORKER_EMAIL : String
  FORWARD_EMAIL : Option String
  FORWARD_EXCLUDE_SENDER : Bool
  REPLY_TO_SENDER : Bool
  SHOW_ATTACHMENTS : Bool
  SHOW_RAW_BODY : Bool
  ATTACHMENT_BLOCK_COLOR_HEX : Option String
  DEBUG : Bool
  SLACK_WEBHOOK_URL : String
deriving DecidableEq

/-- External-failure model: which `message.forward(addr)` calls throw,
and whether the webhook `fetch` throws. -/
structure World where
  forwardFails : String → Bool
  slackFails : Bool

/-- One element of a Slack `rich_text_section`: its text (nullable, the
subject may be absent) and its style flags. -/
structure RTElem where
  content : Option String
  bold : Bool
  italic : Bool
deriving DecidableEq

/-- A block of the Slack payload (`blocks` array). -/
inductive Block where
  | header (text : String)
  | richText (sections : List (List RTElem))
  | context (text : String)
  | divider
  | section (text : Option String)
deriving DecidableEq

/-- One entry of the legacy `attachments` field of the Slack payload:
accent color, and the filename / MIME type / estimated decoded size
interpolated into its blocks. -/
structure LegacyAtt where
  color : Option String
  filename : String
  mimeType : String
  sizeBytes : Nat
deriving DecidableEq

/-- The notification payload: the `blocks` array and the legacy
`attachments` array (empty when the field is omitted). -/
structure SlackPayload where
  blocks : List Block
  attachments : List LegacyAtt
deriving DecidableEq

/-- Observable side effects of one invocation, in program order. -/
inductive Event where
  | forwarded (addr : String)
  | rejected (reason : String)
  | slackPosted (payload : SlackPayload)
  | replied (toAddr : String)
deriving DecidableEq

/-! ## The worker's functions (translated from `src/worker.js`) -/

namespace Worker

/-- `filterEmails(message, env, workerEmail)`: split `FORWARD_EMAIL` on
commas, trim, drop empties, keep the first occurrence of each
case-insensitive duplicate, then drop everything matching the exclude
list (`workerEmail`, plus `message.from` when
`FORWARD_EXCLUDE_SENDER === true`).  `dedupeAux` implements the
`filter((addr, index, self) => self.findIndex(...) === index)` step:
an entry survives exactly when no earlier entry has the same
lower-cased form. -/
def dedupeAux (seen : List String) : List String → List String
  | [] => []
  | a :: rest =>
    if seen.contains (lowerS a) then dedupeAux seen rest
    else a :: dedupeAux (lowerS a :: seen) rest

/-- Case-insensitive first-occurrence deduplication (see `dedupeAux`). -/
def dedupeCI (l : List String) : List String := dedupeAux [] l

/-- `filterEmails` from `src/worker.js`. -/
def filterEmails (msg : EmailMsg) (env : Env) (workerEmail : String) : List String :=
  let addressList := splitOnCommaS (jsOr env.FORWARD_EMAIL "")
  let excludeList := workerEmail :: (if env.FORWARD_EXCLUDE_SENDER then [msg.msgFrom] else [])
  (dedupeCI ((addressList.map jsTrim).filter (fun addr => 0 < addr.length))).filter
    (fun addr => !(excludeList.any (fun excl => lowerS excl == lowerS addr)))

/-- `filterAttachments` from `src/worker.js`: substitute the default
filename and MIME type. -/
def filterAttachments (attachments : List MimeAttachment) : List FiltAttachment :=
  attachments.map (fun attachment =>
    ⟨jsOr attachment.filename "unnamed_attachment",
     jsOr attachment.mimeType "application/octet-stream",
     attachment.content⟩)

/-- `convertContent(text, html)` from `src/worker.js`: prefer the plain
text, fall back to the HTML-to-text conversion `conv`, and return the
trimmed body together with the trimmed raw HTML (each `null` when the
corresponding value is falsy). -/
def convertContent (conv : String → String) (text html : Option String) : ConvertedContent :=
  let body : Option String :=
    if truthy text then text
    else if truthy html then some (conv (jsInterp html))
    else text
  ⟨if truthy body then some (jsTrim (jsOr body "")) else none,
   if truthy html then some (jsTrim (jsOr html "")) else none⟩

/-- `attachmentInfo(attachments)` from `src/worker.js`: the one-line
attachment-count context block, or nothing. -/
def attachmentInfo (attachments : List FiltAttachment) : List Block :=
  if 0 < attachments.length then
    [Block.context ("*_Attachments:_* " ++ toString attachments.length ++ " file(s) received.")]
  else []

/-- `Math.round(n * 0.75)` for a natural `n`: `0.75 * n` is exactly
representable, `Math.round` rounds half up, so the result is
`⌊(3n + 2) / 4⌋`. -/
def attReportedSize (n : Nat) : Nat := (3 * n + 2) / 4

/-- `sendToSlack` from `src/worker.js`, up to the HTTP POST: builds the
notification payload (the POST itself is the external transport, whose
failure is driven by `World.slackFails` in `process`). -/
def sendToSlack (env : Env) (fromAddr : String) (subject : Option String)
    (body : ConvertedContent) (attachments : List FiltAttachment) : SlackPayload :=
  let attachmentInfoBlocks := attachmentInfo attachments
  let hasAttachments := !attachmentInfoBlocks.isEmpty
  let showAttachments := env.SHOW_ATTACHMENTS
  let showRawBody := env.SHOW_RAW_BODY
  ⟨[Block.header "New Email Received!",
    Block.richText
      [[⟨some "From:", true, true⟩, ⟨some " ", false, false⟩, ⟨some fromAddr, false, false⟩],
       [⟨some "Subject:", true, true⟩, ⟨some " ", false, false⟩, ⟨subject, false, false⟩]]]
    ++ (if showAttachments then [] else attachmentInfoBlocks)
    ++ [Block.divider,
        Block.section
          (if showRawBody then some ("*_Body:_*\n```" ++ jsInterp body.html ++ "```")
           else body.text),
        Block.divider]
    ++ (if showAttachments then attachmentInfoBlocks else []),
   if hasAttachments && showAttachments then
     attachments.map (fun att =>
       ⟨if truthy env.ATTACHMENT_BLOCK_COLOR_HEX then env.ATTACHMENT_BLOCK_COLOR_HEX else none,
        att.filename, att.mimeType, attReportedSize att.content.length⟩)
   else []⟩

/-- `forwardMessage(message, env, address)`: one forward attempt; a
throwing `message.forward` is caught and converted into
`setReject('Problem forwarding email')`. -/
def forwardMessage (w : World) (address : String) : List Event :=
  if w.forwardFails address then [Event.rejected "Problem forwarding email"]
  else [Event.forwarded address]

/-- `forward(message, env, addrList)`: sequential loop over the targets
(the empty-list branch only logs). -/
def forward (w : World) : List String → List Event
  | [] => []
  | addr :: rest => forwardMessage w addr ++ forward w rest

/-- `process(message, env, parsedContent)`: normalize the body and the
attachments, build the payload, POST it; a throwing POST is caught and
converted into `setReject('Problem sending to Slack')`. -/
def process (conv : String → String) (w : World) (env : Env) (msg : EmailMsg) : List Event :=
  let body := convertContent conv msg.text msg.html
  let attachments := filterAttachments msg.attachments
  if w.slackFails then [Event.rejected "Problem sending to Slack"]
  else [Event.slackPosted (sendToSlack env msg.msgFrom msg.subject body attachments)]

/-- `reply(message, env, parsedContent)`: sends the automated reply to
the sender when `REPLY_TO_SENDER === true` (the composed MIME text is
not needed by any claim and is not modelled further). -/
def reply (env : Env) (msg : EmailMsg) : List Event :=
  if env.REPLY_TO_SENDER then [Event.replied msg.msgFrom] else []

/-- `main(message, env, ctx)` from `src/worker.js`: trim the envelope
recipient and the configured worker address, compare case-insensitively;
on a match run forward → process → reply, otherwise
`setReject('Unknown address')`. -/
def main (conv : String → String) (w : World) (env : Env) (msg : EmailMsg) : List Event :=
  let recipientEmail := jsTrim msg.msgTo
  let workerEmail := jsTrim env.WORKER_EMAIL
  if lowerS recipientEmail = lowerS workerEmail then
    forward w (filterEmails msg env workerEmail)
      ++ process conv w env msg
      ++ reply env msg
  else
    [Event.rejected "Unknown address"]

/-- Modelled from the spec (§4.2): `computeForwardTargets(rawList,
workerAddress, senderAddress, excludeSender)`, written following the
spec's words — split on commas, trim, drop empties, deduplicate
case-insensitively keeping first occurrences, remove the worker
address, then (when `excludeSender`) remove the sender address.  Used
only to compare `filterEmails` against the spec's description. -/
def computeForwardTargets (rawList workerAddress senderAddress : String)
    (excludeSender : Bool) : List String :=
  let deduped := dedupeCI (((splitOnCommaS rawList).map jsTrim).filter (fun a => 0 < a.length))
  let noWorker := deduped.filter (fun a => !(lowerS workerAddress == lowerS a))
  if excludeSender then noWorker.filter (fun a => !(lowerS senderAddress == lowerS a))
  else noWorker

/-- `env` with `FORWARD_EMAIL` replaced (used to re-feed a computed
forward list into `filterEmails`). -/
def withForwardList (env : Env) (s : String) : Env :=
  ⟨env.WORKER_EMAIL, some s, env.FORWARD_EXCLUDE_SENDER, env.REPLY_TO_SENDER,
   env.SHOW_ATTACHMENTS, env.SHOW_RAW_BODY, env.ATTACHMENT_BLOCK_COLOR_HEX,
   env.DEBUG, env.SLACK_WEBHOOK_URL⟩

/-- Reads off the subject element of the sender/subject rich-text
section of a payload (third element of the second line of the second
block), when the payload has that shape. -/
def richSubject (p : SlackPayload) : Option String :=
  match p.blocks with
  | _ :: Block.richText sections :: _ =>
    match sections with
    | _ :: subjectLine :: _ =>
      match subjectLine with
      | _ :: _ :: v :: _ => v.content
      | _ => none
    | _ => none
  | _ => none

/-! ## Sample inputs (used by the witnesses of the conditional theorems) -/

/-- A world where forwarding to `bad@x.com` throws and the webhook POST
succeeds. -/
def sampleWorld : World := ⟨fun a => a == "bad@x.com", false⟩

/-- A world where every forward succeeds and the webhook POST throws. -/
def sampleWorldSlackFail : World := ⟨fun _ => false, true⟩

/-- A sample configuration with two forward targets. -/
def sampleEnv : Env :=
  ⟨"inbox@worker.example", some "bad@x.com,good@y.com", false, false, false, false, none, false,
   "https://hooks.example/T000"⟩

/-- A sample message addressed (after trimming, case-insensitively) to
the worker. -/
def sampleMsg : EmailMsg :=
  ⟨"alice@ext.com", " Inbox@Worker.Example ", some "Hello", none, some "Hi there", none, []⟩

/-- A sample message addressed to an unknown recipient. -/
def sampleMsgUnknown : EmailMsg :=
  ⟨"alice@ext.com", "other@x.com", some "Hello", none, some "Hi there", none, []⟩

/-- A trivial stand-in for the HTML-to-text converter. -/
def idConv : String → String := fun s => s

/-- A sample configuration with detailed attachment display enabled. -/
def sampleEnvAtt : Env :=
  ⟨"inbox@worker.example", none, false, false, true, false, none, false,
   "https://hooks.example/T000"⟩

/-- A sample configuration with raw-HTML body display enabled. -/
def sampleEnvRaw : Env :=
  ⟨"inbox@worker.example", none, false, false, false, true, none, false,
   "https://hooks.example/T000"⟩

/-- A base64 content string of length 100. -/
def sampleB64 : String := String.mk (List.replicate 100 'A')

/-! ## Helper lemmas: trimming -/

theorem dropWhile_dropWhile (p : Char → Bool) (l : List Char) :
    List.dropWhile p (List.dropWhile p l) = List.dropWhile p l := by
  induction l with
  | nil => rfl
  | cons a l ih =>
    by_cases h : p a = true
    · rw [List.dropWhile_cons_of_pos h]; exact ih
    · rw [List.dropWhile_cons_of_neg h, List.dropWhile_cons_of_neg h]

theorem dropEndWhile_dropEndWhile (p : Char → Bool) (l : List Char) :
    dropEndWhile p (dropEndWhile p l) = dropEndWhile p l := by
  unfold dropEndWhile
  rw [List.reverse_reverse, dropWhile_dropWhile]

/-- `dropWhile` removes a prefix: the input decomposes as that prefix
followed by the result. -/
theorem dropWhile_suffix_decomp (p : Char → Bool) :
    ∀ l : List Char, ∃ t, t ++ List.dropWhile p l = l := by
  intro l
  induction l with
  | nil => exact ⟨[], rfl⟩
  | cons a l ih =>
    by_cases h : p a = true
    · obtain ⟨t, ht⟩ := ih
      exact ⟨a :: t, by rw [List.dropWhile_cons_of_pos h, List.cons_append, ht]⟩
    · exact ⟨[], by rw [List.dropWhile_cons_of_neg h, List.nil_append]⟩

/-- If a list is already free of a leading `p`-run, then so is the list
with its trailing `p`-run removed. -/
theorem dropWhile_dropEndWhile (p : Char → Bool) (l : List Char)
    (h : List.dropWhile p l = l) :
    List.dropWhile p (dropEndWhile p l) = dropEndWhile p l := by
  cases hr : dropEndWhile p l with
  | nil => rfl
  | cons a r =>
    have hp : p a = false := by
      obtain ⟨t, ht⟩ := dropWhile_suffix_decomp p l.reverse
      have h2 : (List.dropWhile p l.reverse).reverse = a :: r := hr
      have hl : l = a :: (r ++ t.reverse) := by
        have h1 : l = (List.dropWhile p l.reverse).reverse ++ t.reverse := by
          rw [← List.reverse_append, ht, List.reverse_reverse]
        rw [h2, List.cons_append] at h1
        exact h1
      cases hpa : p a
      · rfl
      · exfalso
        rw [hl, List.dropWhile_cons_of_pos hpa] at h
        have hlen := congrArg List.length h
        have hle := (List.dropWhile_sublist (l := r ++ t.reverse) p).length_le
        simp only [List.length_cons] at hlen
        omega
    rw [List.dropWhile_cons_of_neg (by simp [hp])]

theorem trimChars_trimChars (l : List Char) :
    trimChars (trimChars l) = trimChars l := by
  unfold trimChars
  rw [dropWhile_dropEndWhile wsChar _ (dropWhile_dropWhile wsChar l), dropEndWhile_dropEndWhile]

theorem jsTrim_jsTrim (s : String) : jsTrim (jsTrim s) = jsTrim s :=
  congrArg String.mk (trimChars_trimChars s.data)

theorem mem_of_mem_trimChars {c : Char} {l : List Char} (h : c ∈ trimChars l) : c ∈ l := by
  unfold trimChars dropEndWhile at h
  exact (List.dropWhile_sublist _).subset
    (List.mem_reverse.mp ((List.dropWhile_sublist _).subset (List.mem_reverse.mp h)))

theorem dropWhile_eq_nil_of_all {p : Char → Bool} {l : List Char} (h : l.all p = true) :
    List.dropWhile p l = [] := by
  induction l with
  | nil => rfl
  | cons a l ih =>
    rw [List.all_cons, Bool.and_eq_true] at h
    rw [List.dropWhile_cons_of_pos h.1]
    exact ih h.2

theorem trimChars_eq_nil_of_all {l : List Char} (h : l.all wsChar = true) :
    trimChars l = [] := by
  unfold trimChars dropEndWhile
  rw [dropWhile_eq_nil_of_all h]
  rfl

/-! ## Helper lemmas: splitting and joining on commas -/

theorem splitAux_ne_nil (l : List Char) : splitAux l ≠ [] := by
  cases l with
  | nil => simp [splitAux]
  | cons c rest =>
    unfold splitAux
    split <;> simp

theorem mem_splitAux_no_comma : ∀ (l : List Char), ∀ p ∈ splitAux l, ',' ∉ p := by
  intro l
  induction l with
  | nil =>
    intro p hp
    simp only [splitAux, List.mem_singleton] at hp
    simp [hp]
  | cons c rest ih =>
    intro p hp
    unfold splitAux at hp
    by_cases hc : c = ','
    · rw [if_pos hc] at hp
      rcases List.mem_cons.mp hp with h1 | h2
      · simp [h1]
      · exact ih p h2
    · rw [if_neg hc] at hp
      rcases List.mem_cons.mp hp with h1 | h2
      · subst h1
        intro hmem
        rcases List.mem_cons.mp hmem with h3 | h4
        · exact hc h3.symm
        · cases hsp : splitAux rest with
          | nil => exact splitAux_ne_nil rest hsp
          | cons q qs =>
            rw [hsp] at h4
            exact ih q (by rw [hsp]; exact List.mem_cons_self q qs) h4
      · cases hsp : splitAux rest with
        | nil => exact absurd hsp (splitAux_ne_nil rest)
        | cons q qs =>
          rw [hsp] at h2
          exact ih p (by rw [hsp]; exact List.mem_cons_of_mem q h2)

theorem splitAux_of_no_comma {p : List Char} (h : ',' ∉ p) : splitAux p = [p] := by
  induction p with
  | nil => rfl
  | cons c p2 ih =>
    have hc : c ≠ ',' := fun hcc => h (hcc ▸ List.mem_cons_self c p2)
    have h2 : ',' ∉ p2 := fun hm => h (List.mem_cons_of_mem c hm)
    unfold splitAux
    rw [if_neg (fun hcc => hc hcc), ih h2]
    rfl

theorem splitAux_append_no_comma {p : List Char} (l : List Char) {q : List Char}
    {qs : List (List Char)} (h : ',' ∉ p) (hl : splitAux l = q :: qs) :
    splitAux (p ++ l) = (p ++ q) :: qs := by
  induction p with
  | nil => simpa using hl
  | cons c p2 ih =>
    have hc : c ≠ ',' := fun hcc => h (hcc ▸ List.mem_cons_self c p2)
    have h2 : ',' ∉ p2 := fun hm => h (List.mem_cons_of_mem c hm)
    rw [List.cons_append]
    unfold splitAux
    rw [if_neg (fun hcc => hc hcc), ih h2]
    rfl

theorem splitAux_joinCommaChars : ∀ (ps : List (List Char)) (p : List Char),
    (∀ x ∈ p :: ps, ',' ∉ x) → splitAux (joinCommaChars (p :: ps)) = p :: ps := by
  intro ps
  induction ps with
  | nil =>
    intro p h
    exact splitAux_of_no_comma (h p (List.mem_cons_self _ _))
  | cons q qs ih =>
    intro p h
    have hq : splitAux (joinCommaChars (q :: qs)) = q :: qs :=
      ih q (fun x hx => h x (List.mem_cons_of_mem p hx))
    have hcomma : splitAux (',' :: joinCommaChars (q :: qs)) = [] :: q :: qs := by
      unfold splitAux
      rw [if_pos rfl, hq]
    have hp : ',' ∉ p := h p (List.mem_cons_self _ _)
    show splitAux (p ++ ',' :: joinCommaChars (q :: qs)) = p :: q :: qs
    rw [splitAux_append_no_comma _ hp hcomma, List.append_nil]

/-! ## Helper lemmas: case-insensitive deduplication -/

theorem mem_of_mem_dedupeAux {x : String} :
    ∀ {l seen : List String}, x ∈ dedupeAux seen l → x ∈ l := by
  intro l
  induction l with
  | nil => intro seen h; simp [dedupeAux] at h
  | cons a rest ih =>
    intro seen h
    unfold dedupeAux at h
    by_cases hc : seen.contains (lowerS a) = true
    · rw [if_pos hc] at h
      exact List.mem_cons_of_mem _ (ih h)
    · rw [if_neg hc] at h
      rcases List.mem_cons.mp h with h1 | h2
      · exact h1 ▸ List.mem_cons_self _ _
      · exact List.mem_cons_of_mem _ (ih h2)

theorem dedupeAux_spec :
    ∀ (l seen : List String),
      (dedupeAux seen l).Pairwise (fun a b => lowerS a ≠ lowerS b)
      ∧ ∀ x ∈ dedupeAux seen l, seen.contains (lowerS x) = false := by
  intro l
  induction l with
  | nil => intro seen; simp [dedupeAux]
  | cons a rest ih =>
    intro seen
    unfold dedupeAux
    by_cases hc : seen.contains (lowerS a) = true
    · rw [if_pos hc]
      exact ih seen
    · rw [if_neg hc]
      obtain ⟨hp, hs⟩ := ih (lowerS a :: seen)
      refine ⟨List.pairwise_cons.mpr ⟨fun b hb heq => ?_, hp⟩, fun x hx => ?_⟩
      · have hb2 := hs b hb
        rw [List.contains_cons, heq] at hb2
        simp at hb2
      · rcases List.mem_cons.mp hx with h1 | h2
        · subst h1
          exact Bool.not_eq_true _ ▸ Bool.of_not_eq_true hc
        · have := hs x h2
          rw [List.contains_cons] at this
          exact (Bool.or_eq_false_iff.mp this).2

theorem dedupeAux_eq_self :
    ∀ (l seen : List String),
      l.Pairwise (fun a b => lowerS a ≠ lowerS b) →
      (∀ x ∈ l, seen.contains (lowerS x) = false) →
      dedupeAux seen l = l := by
  intro l
  induction l with
  | nil => intro seen _ _; rfl
  | cons a rest ih =>
    intro seen hp hs
    have hc : seen.contains (lowerS a) = false := hs a (List.mem_cons_self _ _)
    unfold dedupeAux
    rw [if_neg (by rw [hc]; exact Bool.false_ne_true)]
    rw [ih (lowerS a :: seen) (List.pairwise_cons.mp hp).2 (fun x hx => ?_)]
    rw [List.contains_cons]
    have h1 : (lowerS x == lowerS a) = false := by
      have := (List.pairwise_cons.mp hp).1 x hx
      simp [this.symm]
    rw [h1, hs x (List.mem_cons_of_mem _ hx)]
    rfl

/-! ## Other small helpers -/

theorem forward_append (w : World) (l1 l2 : List String) :
    forward w (l1 ++ l2) = forward w l1 ++ forward w l2 := by
  induction l1 with
  | nil => rfl
  | cons a l ih => simp [forward, ih]

theorem jsOr_some_empty (s : String) : jsOr (some s) "" = s := by
  by_cases h : s = "" <;> simp [jsOr, h]

theorem map_eq_self_of_mem {l : List String} {f : String → String}
    (h : ∀ x ∈ l, f x = x) : l.map f = l := by
  induction l with
  | nil => rfl
  | cons a rest ih =>
    rw [List.map_cons, h a (List.mem_cons_self _ _),
      ih (fun x hx => h x (List.mem_cons_of_mem _ hx))]

theorem mem_of_mem_dedupeCI {x : String} {l : List String} (h : x ∈ dedupeCI l) : x ∈ l :=
  mem_of_mem_dedupeAux h

/-! ## Helper lemmas: properties of the computed forward list -/

/-- Every element of `filterEmails`'s result is trimmed, comma-free and
non-empty (it is the trim of one non-empty piece of the comma-split). -/
theorem filterEmails_elem_props {x : String} {msg : EmailMsg} {env : Env} {worker : String}
    (h : x ∈ filterEmails msg env worker) :
    jsTrim x = x ∧ ',' ∉ x.data ∧ 0 < x.length := by
  simp only [filterEmails] at h
  have h1 := (List.mem_filter.mp h).1
  have h2 := mem_of_mem_dedupeCI h1
  have h3 := List.mem_filter.mp h2
  obtain ⟨y, hy, hxy⟩ := List.mem_map.mp h3.1
  subst hxy
  refine ⟨jsTrim_jsTrim y, ?_, of_decide_eq_true h3.2⟩
  intro hc
  have hcy : ',' ∈ y.data := mem_of_mem_trimChars hc
  simp only [splitOnCommaS] at hy
  obtain ⟨p, hp, hpy⟩ := List.mem_map.mp hy
  subst hpy
  exact mem_splitAux_no_comma _ p hp hcy

/-- The computed forward list has pairwise distinct lower-cased
entries. -/
theorem filterEmails_pairwise (msg : EmailMsg) (env : Env) (worker : String) :
    (filterEmails msg env worker).Pairwise (fun a b => lowerS a ≠ lowerS b) := by
  simp only [filterEmails]
  exact List.Pairwise.sublist (List.filter_sublist _) (dedupeAux_spec _ []).1

/-- Every element of the computed forward list fails the exclusion
test (worker address, and sender when configured). -/
theorem filterEmails_mem_excl {x : String} {msg : EmailMsg} {env : Env} {worker : String}
    (h : x ∈ filterEmails msg env worker) :
    ((worker :: (if env.FORWARD_EXCLUDE_SENDER then [msg.msgFrom] else [])).any
      (fun excl => lowerS excl == lowerS x)) = false := by
  simp only [filterEmails] at h
  have h2 := (List.mem_filter.mp h).2
  simpa using h2

/-- Re-feeding the computed forward list (re-joined on commas) into
`filterEmails` reproduces it: the pipeline is idempotent. -/
theorem filterEmails_reapply (msg : EmailMsg) (env : Env) (worker : String) :
    filterEmails msg (withForwardList env (joinComma (filterEmails msg env worker))) worker
      = filterEmails msg env worker := by
  by_cases hnil : filterEmails msg env worker = []
  · rw [hnil]
    rfl
  · obtain ⟨o, os, hcons⟩ := List.exists_cons_of_ne_nil hnil
    have hprops := fun x hx => @filterEmails_elem_props x msg env worker hx
    have hsplit : splitOnCommaS (jsOr (some (joinComma (filterEmails msg env worker))) "")
        = filterEmails msg env worker := by
      rw [jsOr_some_empty]
      unfold splitOnCommaS joinComma
      rw [hcons, List.map_cons,
        splitAux_joinCommaChars (os.map String.data) o.data ?nocomma]
      · rw [← List.map_cons, List.map_map]
        have hmk : (String.mk ∘ String.data) = id := funext fun y => rfl
        rw [hmk, List.map_id]
      case nocomma =>
        intro x hx
        rw [← List.map_cons] at hx
        obtain ⟨y, hy, hyx⟩ := List.mem_map.mp hx
        subst hyx
        exact (hprops y (hcons ▸ hy)).2.1
    have htrim : (filterEmails msg env worker).map jsTrim = filterEmails msg env worker :=
      map_eq_self_of_mem (fun x hx => (hprops x hx).1)
    have hfiltlen : (filterEmails msg env worker).filter (fun addr => decide (0 < addr.length))
        = filterEmails msg env worker :=
      List.filter_eq_self.mpr (fun x hx => decide_eq_true (hprops x hx).2.2)
    have hdedupe : dedupeCI (filterEmails msg env worker) = filterEmails msg env worker :=
      dedupeAux_eq_self _ [] (filterEmails_pairwise msg env worker) (fun x _ => rfl)
    have hexcl : (filterEmails msg env worker).filter
        (fun addr => !((worker :: (if env.FORWARD_EXCLUDE_SENDER then [msg.msgFrom] else [])).any
          (fun excl => lowerS excl == lowerS addr))) = filterEmails msg env worker :=
      List.filter_eq_self.mpr (fun x hx => by rw [filterEmails_mem_excl hx]; rfl)
    calc filterEmails msg (withForwardList env (joinComma (filterEmails msg env worker))) worker
        = (dedupeCI (((splitOnCommaS (jsOr (some (joinComma (filterEmails msg env worker))) "")).map
            jsTrim).filter (fun addr => decide (0 < addr.length)))).filter
            (fun addr => !((worker :: (if env.FORWARD_EXCLUDE_SENDER then [msg.msgFrom] else [])).any
              (fun excl => lowerS excl == lowerS addr))) := by
          simp only [filterEmails, withForwardList]
      _ = filterEmails msg env worker := by
          rw [hsplit, htrim, hfiltlen, hdedupe, hexcl]

/-! ## Claims -/

/-- C1: for every inbound message, the router trims the envelope
recipient and the configured worker address and compares them
case-insensitively; when they do not match the whole trace is
`setReject("Unknown address")` — no forward, no webhook notification,
no reply — and when they match the trace is exactly the forward step,
then the notification step, then the optional reply step. -/
theorem main_c1 (conv : String → String) (w : World) (env : Env) (msg : EmailMsg) :
    (lowerS (jsTrim msg.msgTo) ≠ lowerS (jsTrim env.WORKER_EMAIL) →
      main conv w env msg = [Event.rejected "Unknown address"])
    ∧ (lowerS (jsTrim msg.msgTo) = lowerS (jsTrim env.WORKER_EMAIL) →
      main conv w env msg
        = forward w (filterEmails msg env (jsTrim env.WORKER_EMAIL))
          ++ process conv w env msg ++ reply env msg) := by
  constructor <;> intro h <;> simp [main, h]

/-- Witness for `main_c1`: a mismatching recipient is rejected, a
recipient matching up to trimming and case is processed. -/
theorem main_c1_w :
    main idConv sampleWorld sampleEnv sampleMsgUnknown = [Event.rejected "Unknown address"]
    ∧ main idConv sampleWorld sampleEnv sampleMsg
        = forward sampleWorld (filterEmails sampleMsg sampleEnv (jsTrim sampleEnv.WORKER_EMAIL))
          ++ process idConv sampleWorld sampleEnv sampleMsg ++ reply sampleEnv sampleMsg :=
  ⟨(main_c1 idConv sampleWorld sampleEnv sampleMsgUnknown).1 (by decide),
   (main_c1 idConv sampleWorld sampleEnv sampleMsg).2 (by decide)⟩

/-- C2: a failing forward target is caught and converted into
`setReject("Problem forwarding email")`, the remaining targets are
still attempted, and the notification step still runs. -/
theorem forward_c2 (conv : String → String) (w : World) (env : Env) (msg : EmailMsg)
    (l1 l2 : List String) (a : String)
    (hm : lowerS (jsTrim msg.msgTo) = lowerS (jsTrim env.WORKER_EMAIL))
    (hl : filterEmails msg env (jsTrim env.WORKER_EMAIL) = l1 ++ a :: l2)
    (hf : w.forwardFails a = true) :
    forwardMessage w a = [Event.rejected "Problem forwarding email"]
    ∧ main conv w env msg
        = forward w l1 ++ [Event.rejected "Problem forwarding email"]
          ++ forward w l2 ++ process conv w env msg ++ reply env msg := by
  have h1 : forwardMessage w a = [Event.rejected "Problem forwarding email"] := by
    simp [forwardMessage, hf]
  refine ⟨h1, ?_⟩
  simp [main, hm, hl, forward_append, forward, h1, List.append_assoc]

/-- Witness for `forward_c2`: with targets `bad@x.com, good@y.com` and a
world where only `bad@x.com` throws, the failing first target is
converted to a reject and the second target and the notification still
run. -/
theorem forward_c2_w :
    forwardMessage sampleWorld "bad@x.com" = [Event.rejected "Problem forwarding email"]
    ∧ main idConv sampleWorld sampleEnv sampleMsg
        = forward sampleWorld [] ++ [Event.rejected "Problem forwarding email"]
          ++ forward sampleWorld ["good@y.com"] ++ process idConv sampleWorld sampleEnv sampleMsg
          ++ reply sampleEnv sampleMsg :=
  forward_c2 idConv sampleWorld sampleEnv sampleMsg [] ["good@y.com"] "bad@x.com"
    (by decide) (by decide) (by decide)

/-- C3: a failing webhook POST is caught inside the notification step
and converted into `setReject("Problem sending to Slack")`; the forward
part of the trace is unchanged (it still precedes the reject), and the
invocation still produces a well-defined trace (every function of the
model is total, so no fault escapes the router). -/
theorem process_c3 (conv : String → String) (w : World) (env : Env) (msg : EmailMsg)
    (hm : lowerS (jsTrim msg.msgTo) = lowerS (jsTrim env.WORKER_EMAIL))
    (hs : w.slackFails = true) :
    process conv w env msg = [Event.rejected "Problem sending to Slack"]
    ∧ main conv w env msg
        = forward w (filterEmails msg env (jsTrim env.WORKER_EMAIL))
          ++ [Event.rejected "Problem sending to Slack"] ++ reply env msg := by
  have h1 : process conv w env msg = [Event.rejected "Problem sending to Slack"] := by
    simp [process, hs]
  exact ⟨h1, by simp [main, hm, h1]⟩

/-- Witness for `process_c3`: with a world whose webhook POST throws,
the trace is forward steps, the Slack reject, then the (skipped)
reply. -/
theorem process_c3_w :
    process idConv sampleWorldSlackFail sampleEnv sampleMsg
      = [Event.rejected "Problem sending to Slack"]
    ∧ main idConv sampleWorldSlackFail sampleEnv sampleMsg
        = forward sampleWorldSlackFail (filterEmails sampleMsg sampleEnv (jsTrim sampleEnv.WORKER_EMAIL))
          ++ [Event.rejected "Problem sending to Slack"] ++ reply sampleEnv sampleMsg :=
  process_c3 idConv sampleWorldSlackFail sampleEnv sampleMsg (by decide) (by decide)

/-- C4: the code's `filterEmails` coincides with the spec's
`computeForwardTargets` pipeline (split on commas, trim, drop empties,
case-insensitive first-occurrence dedup, remove the worker address,
then — when the flag is set — remove the sender); in particular
`["A@x.com","a@x.com"]` yields `["A@x.com"]`. -/
theorem filterEmails_c4 (msg : EmailMsg) (env : Env) (worker : String) :
    filterEmails msg env worker
      = computeForwardTargets (jsOr env.FORWARD_EMAIL "") worker msg.msgFrom
          env.FORWARD_EXCLUDE_SENDER
    ∧ computeForwardTargets "A@x.com,a@x.com" "inbox@worker.example" "alice@ext.com" true
      = ["A@x.com"] := by
  constructor
  · simp only [filterEmails, computeForwardTargets]
    cases hf : env.FORWARD_EXCLUDE_SENDER
    · simp only [Bool.false_eq_true, if_false]
      refine List.filter_congr fun x _ => ?_
      simp [List.any_cons, List.any_nil]
    · simp only [if_true]
      rw [List.filter_filter]
      refine List.filter_congr fun x _ => ?_
      simp [List.any_cons, List.any_nil, Bool.not_or, Bool.and_comm]
  · decide

/-- C5: the forward-target computation is idempotent — re-filtering its
own output re-joined on commas yields the same list — and its output
never contains the worker address nor (when the exclude-sender flag is
set) the sender address, case-insensitively. -/
theorem filterEmails_c5 (msg : EmailMsg) (env : Env) (worker : String) :
    filterEmails msg (withForwardList env (joinComma (filterEmails msg env worker))) worker
      = filterEmails msg env worker
    ∧ (filterEmails msg env worker).all
        (fun a => !(lowerS worker == lowerS a)
          && (!env.FORWARD_EXCLUDE_SENDER || !(lowerS msg.msgFrom == lowerS a))) = true := by
  refine ⟨filterEmails_reapply msg env worker, List.all_eq_true.mpr fun x hx => ?_⟩
  have h := filterEmails_mem_excl hx
  cases hf : env.FORWARD_EXCLUDE_SENDER
  · rw [hf] at h
    simp only [Bool.false_eq_true, if_false, List.any_cons, List.any_nil, Bool.or_false] at h
    simp [h]
  · rw [hf] at h
    simp only [if_true, List.any_cons, List.any_nil, Bool.or_false,
      Bool.or_eq_false_iff] at h
    simp [h.1, h.2]

/-- C6 counterexample: with a conversion that yields the empty string
(as `html-to-text` does on content-free markup), an empty `text` and a
present `html` produce an absent plain body (`null`), not the trimmed
conversion `""` — so "the plain body equals the trimmed HTML-to-text
conversion of html" fails at this input. -/
theorem convertContent_c6_cx :
    (convertContent (fun _ => "") (some "") (some "<p></p>")).text = none
    ∧ (convertContent (fun _ => "") (some "") (some "<p></p>")).text
        ≠ some (jsTrim ((fun (_ : String) => "") "<p></p>")) := by decide

/-- C6 (amended): body normalization returns the trimmed `text` as the
plain body whenever `text` is non-empty, regardless of `html`; and
whenever `text` is empty or absent, `html` is present, and the
HTML-to-text conversion of `html` is non-empty, the plain body equals
the trimmed conversion (when the conversion is empty the plain body is
absent instead). -/
theorem convertContent_c6 (conv : String → String) (text html : Option String) :
    (∀ s, text = some s → s ≠ "" → (convertContent conv text html).text = some (jsTrim s))
    ∧ (∀ hstr, truthy text = false → html = some hstr → hstr ≠ "" → conv hstr ≠ "" →
        (convertContent conv text html).text = some (jsTrim (conv hstr))) := by
  constructor
  · intro s hts hs
    subst hts
    have hb : (s == "") = false := beq_eq_false_iff_ne.mpr hs
    simp [convertContent, truthy, jsOr, hb]
  · intro hstr htf hh hne hcv
    subst hh
    have hb2 : (hstr == "") = false := beq_eq_false_iff_ne.mpr hne
    have hbc : (conv hstr == "") = false := beq_eq_false_iff_ne.mpr hcv
    have ht2 : truthy (some hstr) = true := by simp [truthy, hb2]
    have ht3 : truthy (some (conv hstr)) = true := by simp [truthy, hbc]
    simp [convertContent, jsOr, jsInterp, htf, ht2, ht3, hcv]

/-- Witness for `convertContent_c6`: a non-empty `text` wins over a
present `html`, and an absent `text` falls back to the (non-empty)
trimmed conversion. -/
theorem convertContent_c6_w :
    (convertContent (fun _ => " hi ") (some "x") (some "<p>q</p>")).text = some "x"
    ∧ (convertContent (fun _ => " hi ") none (some "<p>q</p>")).text = some "hi" := by
  refine ⟨?_, ?_⟩
  · have h := (convertContent_c6 (fun _ => " hi ") (some "x") (some "<p>q</p>")).1
      "x" rfl (by decide)
    exact h.trans (by decide)
  · have h := (convertContent_c6 (fun _ => " hi ") none (some "<p>q</p>")).2
      "<p>q</p>" (by decide) rfl (by decide) (by decide)
    exact h.trans (by decide)

/-- C7 counterexample: when both `text` and `html` are absent the
normalized plain body is `null` (absent), not the empty string. -/
theorem convertContent_c7_cx :
    (convertContent (fun s => s) none none).text = none
    ∧ (convertContent (fun s => s) none none).text ≠ some "" := by decide

/-- C7 (amended): when both the text part and the html part are empty
or absent, the normalized plain body (and the normalized HTML body) is
absent (`null`) — not the empty string. -/
theorem convertContent_c7 (conv : String → String) (text html : Option String)
    (h1 : truthy text = false) (h2 : truthy html = false) :
    (convertContent conv text html).text = none
    ∧ (convertContent conv text html).html = none := by
  simp [convertContent, h1, h2]

/-- Witness for `convertContent_c7` at `text = some ""`, `html = none`. -/
theorem convertContent_c7_w :
    (convertContent (fun s => s) (some "") none).text = none
    ∧ (convertContent (fun s => s) (some "") none).html = none :=
  convertContent_c7 (fun s => s) (some "") none (by decide) (by decide)

/-- C10: for a whitespace-only (non-empty) `text` and any `html`, the
plain body is the empty string and the HTML-to-text conversion is never
consulted — the result does not depend on the converter at all. -/
theorem convertContent_c10 (conv conv2 : String → String) (html : Option String) (s : String)
    (h1 : s ≠ "") (h2 : s.data.all wsChar = true) :
    (convertContent conv (some s) html).text = some ""
    ∧ convertContent conv (some s) html = convertContent conv2 (some s) html := by
  have hb : (s == "") = false := beq_eq_false_iff_ne.mpr h1
  have htr : jsTrim s = "" := by
    unfold jsTrim
    rw [trimChars_eq_nil_of_all h2]
  constructor
  · simp [convertContent, truthy, jsOr, hb, htr]
  · simp [convertContent, truthy, hb]

/-- Witness for `convertContent_c10` at `text = " "` with two different
converters. -/
theorem convertContent_c10_w :
    (convertContent (fun _ => "X") (some " ") (some "<b>hi</b>")).text = some ""
    ∧ convertContent (fun _ => "X") (some " ") (some "<b>hi</b>")
        = convertContent (fun _ => "Y") (some " ") (some "<b>hi</b>") :=
  convertContent_c10 (fun _ => "X") (fun _ => "Y") (some "<b>hi</b>") " "
    (by decide) (by decide)

/-- C8 counterexample: an attachment whose base64 content has length 2
is reported with size `Math.round(2 * 0.75) = 2` bytes, while
`floor(2 * 0.75) = 1` — the reported size is not `floor(length * 0.75)`
for every attachment. -/
theorem sendToSlack_c8_cx :
    ((sendToSlack sampleEnvAtt "a@x.com" none ⟨none, none⟩
        [⟨"f.bin", "application/octet-stream", "ab"⟩]).attachments.map LegacyAtt.sizeBytes)
      = [2]
    ∧ (2 : Nat) ≠ 3 * ("ab" : String).length / 4 := by decide

/-- C8 (amended): the decoded byte size reported for each attachment is
`Math.round(base64Length * 0.75)` — that is `⌊(3·len + 2) / 4⌋` — which
agrees with `floor(base64Length * 0.75)` whenever the length is a
multiple of 4 (as padded base64 always is); in particular a content of
length 100 is reported as 75 bytes. -/
theorem sendToSlack_c8 (env : Env) (fromAddr : String) (subject : Option String)
    (body : ConvertedContent) (atts : List FiltAttachment)
    (h1 : env.SHOW_ATTACHMENTS = true) :
    (sendToSlack env fromAddr subject body atts).attachments
      = atts.map (fun att =>
          ⟨if truthy env.ATTACHMENT_BLOCK_COLOR_HEX then env.ATTACHMENT_BLOCK_COLOR_HEX else none,
           att.filename, att.mimeType, attReportedSize att.content.length⟩)
    ∧ (∀ n, n % 4 = 0 → attReportedSize n = 3 * n / 4)
    ∧ attReportedSize 100 = 75 := by
  refine ⟨?_, fun n hn => by unfold attReportedSize; omega, by decide⟩
  cases atts with
  | nil => simp [sendToSlack, attachmentInfo, h1]
  | cons b bs => simp [sendToSlack, attachmentInfo, h1]

/-- Witness for `sendToSlack_c8`: one attachment with base64 content of
length 100 is reported as 75 bytes. -/
theorem sendToSlack_c8_w :
    ((sendToSlack sampleEnvAtt "a@x.com" none ⟨none, none⟩
        [⟨"f.txt", "text/plain", sampleB64⟩]).attachments.map LegacyAtt.sizeBytes) = [75]
    ∧ attReportedSize 100 = 75 := by
  have h := sendToSlack_c8 sampleEnvAtt "a@x.com" none ⟨none, none⟩
    [⟨"f.txt", "text/plain", sampleB64⟩] rfl
  exact ⟨by rw [h.1]; decide, h.2.2⟩

/-- C9 counterexample: when the subject is absent the built payload
shows no substitute in the subject line — the subject element of the
sender/subject section is `null`, so "the subject line shows ... a
substitute when the subject is absent" fails. -/
theorem sendToSlack_c9_cx :
    (richSubject (sendToSlack sampleEnv "alice@ext.com" none ⟨none, none⟩ [])).isSome
      = false := by decide

/-- C9 (amended): the block list starts with a header block titled
"New Email Received!", followed by the sender/subject rich-text section
in which the subject element carries the message's subject verbatim
(`null` when absent — no substitute is applied in the notification);
the body section's text is the normalized plain body unless the
show-raw-body toggle is set, in which case it is the normalized HTML
body (rendered as the text "null" when absent) wrapped in a
preformatted block behind a bold "Body:" label. -/
theorem sendToSlack_c9 (env : Env) (fromAddr : String) (subject : Option String)
    (body : ConvertedContent) (atts : List FiltAttachment) :
    (sendToSlack env fromAddr subject body atts).blocks.head?
      = some (Block.header "New Email Received!")
    ∧ (sendToSlack env fromAddr subject body atts).blocks[1]?
      = some (Block.richText
          [[⟨some "From:", true, true⟩, ⟨some " ", false, false⟩, ⟨some fromAddr, false, false⟩],
           [⟨some "Subject:", true, true⟩, ⟨some " ", false, false⟩, ⟨subject, false, false⟩]])
    ∧ (env.SHOW_RAW_BODY = false →
        Block.section body.text ∈ (sendToSlack env fromAddr subject body atts).blocks)
    ∧ (env.SHOW_RAW_BODY = true →
        Block.section (some ("*_Body:_*\n```" ++ jsInterp body.html ++ "```"))
          ∈ (sendToSlack env fromAddr subject body atts).blocks) := by
  refine ⟨?_, ?_, fun h => ?_, fun h => ?_⟩
  · simp [sendToSlack]
  · simp [sendToSlack]
  · simp [sendToSlack, h]
  · simp [sendToSlack, h]

/-- Witness for `sendToSlack_c9`: the plain body appears as the body
section by default, and the fenced raw HTML appears when the toggle is
set. -/
theorem sendToSlack_c9_w :
    Block.section (some "Hi there")
      ∈ (sendToSlack sampleEnv "alice@ext.com" (some "Hello") ⟨some "Hi there", none⟩ []).blocks
    ∧ Block.section (some ("*_Body:_*\n```" ++ jsInterp (some "<b>x</b>") ++ "```"))
      ∈ (sendToSlack sampleEnvRaw "alice@ext.com" (some "Hello")
          ⟨some "x", some "<b>x</b>"⟩ []).blocks :=
  ⟨(sendToSlack_c9 sampleEnv "alice@ext.com" (some "Hello") ⟨some "Hi there", none⟩ []).2.2.1 rfl,
   (sendToSlack_c9 sampleEnvRaw "alice@ext.com" (some "Hello")
      ⟨some "x", some "<b>x</b>"⟩ []).2.2.2 rfl⟩

end Worker
